import Mathlib

/-! resource-fs: `main.c`

A shallow embedding of `src/main.c`, a program that opens
`res:/alternate_name.md`, reads up to 100 bytes into a stack buffer and prints
them.  The C library calls (`fopen`, `fread`, `printf`, `fclose`) act on an
explicit world: the bytes written to standard output and the ordered list of
library calls made so far.  The file system, the indeterminate initial
contents of the stack buffer and the memory that follows the buffer are
parameters (`Env`).
-/

namespace ResourceFs

/-! ## Bytes and text -/

/-- One `char` of the program: an eight-bit byte. -/
abbrev Byte := Fin 256

/-- The byte of a character of a format string (all of them are ASCII). -/
def charByte (c : Char) : Byte := Fin.ofNat c.toNat

/-- The bytes of a string literal of the program. -/
def strBytes (s : String) : List Byte := s.toList.map charByte

/-! ## The environment -/

/-- Modelled from the spec: the failure kinds of an open (sections 4.1 and 7).
`fopen` itself reports none of them to its caller, it returns a null handle. -/
inductive OpenError where
  | UnknownScheme
  | NotFound
  | IOError
  deriving DecidableEq, Repr

/-- A byte stream as the backing store serves it: its content, and the number
of bytes after which the transport fails, if it does. -/
structure Stream where
  content : List Byte
  fault : Option Nat
  deriving DecidableEq, Repr

/-- The bytes of the stream that a reader can obtain: all of them, or those
before the transport failure. -/
def Stream.deliverable (s : Stream) : List Byte :=
  match s.fault with
  | none => s.content
  | some k => s.content.take k

/-- The value of `sizeof(buf)` for `char buf[100]`. -/
abbrev sizeof_buf : Nat := 100

/-- The storage of `char buf[100]`: exactly 100 bytes. -/
structure Buf where
  bytes : List Byte
  size : bytes.length = sizeof_buf

/-- The environment of one run: what an open of a path in a mode yields, the
bytes that happen to lie in the storage of `buf` before the program writes to
it (the declaration has no initialiser), and the bytes that lie in memory right
after that storage, which a `%s` conversion fetches when it finds no zero byte
inside `buf`. -/
structure Env where
  fs : String → String → Except OpenError Stream
  stack : Buf
  beyond : List Byte

/-! ## The C library -/

/-- An open `FILE`: the stream, the read cursor, and whether `fclose` has been
called on it. -/
structure FILE where
  stream : Stream
  pos : Nat
  closed : Bool
  deriving DecidableEq, Repr

/-- A call of the C library, as recorded in the world. -/
inductive Event where
  | fopen (path mode : String) (ok : Bool)
  | fread (offset size nmemb ret : Nat)
  | printf (text : List Byte)
  | fclose
  deriving DecidableEq, Repr

/-- The observable world: standard output, the calls made so far, and whether a
`%s` conversion found no terminator inside the array it was handed.  The C
standard leaves that read undefined; the model records it here, lets the
conversion go on through the memory that follows the array, and continues with
the control flow of the source. -/
structure World where
  out : List Byte
  trace : List Event
  overrun : Bool
  deriving DecidableEq, Repr

/-- The world at program start. -/
def World.init : World := ⟨[], [], false⟩

/-- `fopen(path, mode)`: a handle positioned at offset 0, or `none` for the null
pointer when the environment fails the open, whatever the failure kind. -/
def fopen (env : Env) (path mode : String) (w : World) : Option FILE × World :=
  match env.fs path mode with
  | .ok s => (some ⟨s, 0, false⟩, { w with trace := w.trace ++ [.fopen path mode true] })
  | .error _ => (none, { w with trace := w.trace ++ [.fopen path mode false] })

/-- `fread(buf, size, nmemb, f)`: copies up to `size * nmemb` obtainable bytes
from the cursor into the front of `buf`, advances the cursor, and returns the
number of complete items read (0 when `size` is 0). -/
def fread (buf : List Byte) (size nmemb : Nat) (f : FILE) (w : World) :
    Nat × List Byte × FILE × World :=
  let got := (f.stream.deliverable.drop f.pos).take (size * nmemb)
  let ret := got.length / size
  (ret, got ++ buf.drop got.length, { f with pos := f.pos + got.length },
    { w with trace := w.trace ++ [.fread f.pos size nmemb ret] })

/-- `fclose(f)`. -/
def fclose (f : FILE) (w : World) : FILE × World :=
  ({ f with closed := true }, { w with trace := w.trace ++ [.fclose] })

/-- An argument of `printf`: a `size_t` value, or a pointer to an array, given
as the bytes of the array and the bytes of the memory that follows it. -/
inductive Arg where
  | size_t (n : Nat)
  | str (buf beyond : List Byte)

/-- What `%s` prints of the memory it is pointed at: the bytes before the first
zero byte. -/
def cstr (buf : List Byte) : List Byte := buf.takeWhile (fun b => b ≠ 0)

/-- Whether the array holds a zero byte. -/
def terminated (buf : List Byte) : Bool := buf.any (fun b => b = 0)

/-- What `%zu` prints: the decimal digits of the value. -/
def fmtZu (n : Nat) : List Byte := (Nat.toDigits 10 n).map charByte

/-- The text of a format string with its arguments, and whether some `%s` ran
off the end of its array.  Only the conversions of the program are known.  A
`%s` prints from the start of the array up to the first zero byte; when the
array holds none it reads on through the memory that follows and the flag is
raised. -/
def format : List Char → List Arg → List Byte × Bool
  | [], _ => ([], false)
  | '%' :: 'z' :: 'u' :: fmt, .size_t n :: args =>
    let r := format fmt args
    (fmtZu n ++ r.1, r.2)
  | '%' :: 's' :: fmt, .str buf beyond :: args =>
    let r := format fmt args
    (cstr (buf ++ beyond) ++ r.1, r.2 || !terminated buf)
  | c :: fmt, args =>
    let r := format fmt args
    (charByte c :: r.1, r.2)

/-- `printf(fmt, args...)`. -/
def printf (fmt : String) (args : List Arg) (w : World) : World :=
  let r := format fmt.toList args
  { out := w.out ++ r.1, trace := w.trace ++ [.printf r.1], overrun := w.overrun || r.2 }

/-! ## The program -/

/-- The result of a run of `main`. -/
structure Outcome where
  exitCode : Int
  world : World
  f : Option FILE
  buf : Option (List Byte)
  read : Option Nat
  deriving DecidableEq, Repr

/-- The function `main` of `src/main.c`: `fopen`; when the handle is not null,
`fread` into the uninitialised `buf`, `printf` of the count and of `buf` under
the guard `read > 0`, then `fclose`; otherwise `printf` of the failure line;
`return 0` on both branches.  Besides the exit code the result exposes the
final world and the final values of `f`, `buf` and `read` (`none` where the
variable never came into scope). -/
def main (env : Env) : Outcome :=
  match fopen env "res:/alternate_name.md" "rb" World.init with
  | (some f, w) =>
    let buf := env.stack.bytes
    let (read, buf, f, w) := fread buf 1 sizeof_buf f w
    let w := if read > 0 then
        printf "Read %zu bytes: %s\n" [.size_t read, .str buf env.beyond] w
      else w
    let (f, w) := fclose f w
    ⟨0, w, some f, some buf, some read⟩
  | (none, w) =>
    let w := printf "Failed to open file\n" [] w
    ⟨0, w, none, none, none⟩

/-- Standard output at the end of the run. -/
def Outcome.output (o : Outcome) : List Byte := o.world.out

/-- The library calls of the run, in order. -/
def Outcome.trace (o : Outcome) : List Event := o.world.trace

/-- The path the program opens. -/
abbrev resPath : String := "res:/alternate_name.md"

/-- The bytes one `fread` of `sizeof_buf` bytes obtains from a fresh handle. -/
def received (s : Stream) : List Byte := s.deliverable.take sizeof_buf

/-- The line `Read <n> bytes: <text>` followed by a newline, where the text is
what `%s` prints of the memory `mem`. -/
def readLine (n : Nat) (mem : List Byte) : List Byte :=
  strBytes "Read " ++ (fmtZu n ++ (strBytes " bytes: " ++ (cstr mem ++ strBytes "\n")))

/-- The line `Failed to open file` followed by a newline. -/
def failLine : List Byte := strBytes "Failed to open file\n"

/-! ## The stream protocol and the resolver of the specification -/

/-- Modelled from the spec: the states of a ByteStream (section 4.1),
`Open -> (Reading)* -> Closed`; the source has no such type. -/
inductive StreamState where
  | Open
  | Reading
  | Closed
  deriving DecidableEq, Repr

/-- Modelled from the spec: what a misplaced stream operation fails with.
`UseAfterClose` is the kind of section 7; `NoStream` stands for an operation
issued on a null handle or before any open. -/
inductive StreamError where
  | UseAfterClose
  | NoStream
  deriving DecidableEq, Repr

/-- The handle variable `f` as the protocol sees it. -/
inductive Handle where
  | unopened
  | null
  | live (st : StreamState)
  deriving DecidableEq, Repr

/-- Modelled from the spec: one step of the ByteStream state machine, driven by
a library call.  A read or a close needs a stream that is not `Closed`;
printing does not touch the stream. -/
def Handle.step : Handle → Event → Except StreamError Handle
  | .unopened, .fopen _ _ true => .ok (.live .Open)
  | .unopened, .fopen _ _ false => .ok .null
  | h, .printf _ => .ok h
  | .live .Closed, _ => .error .UseAfterClose
  | .live _, .fread _ _ _ _ => .ok (.live .Reading)
  | .live _, .fclose => .ok (.live .Closed)
  | _, _ => .error .NoStream

/-- Runs a sequence of library calls through the state machine. -/
def Handle.run : Handle → List Event → Except StreamError Handle
  | h, [] => .ok h
  | h, ev :: evs =>
    match h.step ev with
    | .ok h1 => Handle.run h1 evs
    | .error e => .error e

/-- Whether a library call is a read or a close of the stream. -/
def Event.isStreamOp : Event → Bool
  | .fread _ _ _ _ => true
  | .fclose => true
  | _ => false

/-- Whether a library call is a read of the stream. -/
def Event.isRead : Event → Bool
  | .fread _ _ _ _ => true
  | _ => false

/-- Modelled from the spec: a ResourceURI (section 3), a scheme and a path. -/
structure ResourceURI where
  scheme : String
  path : String
  deriving DecidableEq, Repr

/-- Modelled from the spec: the format `<scheme>:/<path>` of section 6, split at
the first colon; a string with no colon or an empty scheme is not a URI. -/
def ResourceURI.parse (s : String) : Option ResourceURI :=
  match s.toList.span (fun c => c != ':') with
  | (sch, ':' :: rest) =>
    if sch.isEmpty then none else some ⟨String.mk sch, String.mk rest⟩
  | _ => none

/-- Modelled from the spec: a backing store (section 3), which locates the
stream of a path or does not. -/
structure BackingStore where
  locate : String → Option Stream

/-- Modelled from the spec: the registry of section 9, from scheme to store. -/
abbrev Registry := List (String × BackingStore)

/-- Modelled from the spec: the resolver's `open` of section 4.1, absent from
the source.  `UnknownScheme` when no store is registered for the scheme,
`NotFound` when the store cannot locate the path. -/
def resolverOpen (reg : Registry) (uri : ResourceURI) : Except OpenError Stream :=
  match reg.lookup uri.scheme with
  | none => .error .UnknownScheme
  | some store =>
    match store.locate uri.path with
    | none => .error .NotFound
    | some s => .ok s

/-- Modelled from the spec: a file system served by the resolver.  A string that
is not a URI names no registered scheme. -/
def resolverFs (reg : Registry) (path _mode : String) : Except OpenError Stream :=
  match ResourceURI.parse path with
  | none => .error .UnknownScheme
  | some uri => resolverOpen reg uri

/-- Modelled from the spec: the in-memory store of the scenarios of section 8. -/
def memStore (files : List (String × List Byte)) : BackingStore where
  locate := fun p => (files.lookup p).map (fun c => ⟨c, none⟩)

/-! ## Concrete environments -/

/-- A stack region holding zero bytes. -/
def zeroStack : Buf := ⟨List.replicate 100 0, by decide⟩

/-- A stack region holding the non-zero byte `0xAA` throughout. -/
def junkStack : Buf := ⟨List.replicate 100 170, by decide⟩

/-- Memory after `buf`: twelve bytes `0xAA`, the byte `d`, then a zero byte. -/
def junkBeyond : List Byte := List.replicate 12 170 ++ [100, 0, 7]

/-- The registry of the scenario: scheme `res` backed by an in-memory store
with `/alternate_name.md -> hello`. -/
def helloRegistry : Registry :=
  [("res", memStore [("/alternate_name.md", strBytes "hello")])]

/-- The scenario of section 8, run over a stack region of non-zero bytes. -/
def envHello : Env := ⟨resolverFs helloRegistry, junkStack, junkBeyond⟩

/-- No scheme is registered. -/
def envUnknownScheme : Env := ⟨resolverFs [], zeroStack, []⟩

/-- Scheme `res` is registered, its store holds no `/alternate_name.md`. -/
def envNotFound : Env :=
  ⟨resolverFs [("res", memStore [("/other.md", strBytes "hello")])], zeroStack, []⟩

/-- The open succeeds on a stream with the given content and fault. -/
def envServing (content : List Byte) (fault : Option Nat) (stack : Buf) : Env :=
  ⟨fun path _ => if path = resPath then .ok ⟨content, fault⟩ else .error .NotFound, stack,
    junkBeyond⟩

/-- The open succeeds on 120 bytes `A`, none of them zero. -/
def envLong : Env := envServing (List.replicate 120 65) none zeroStack

/-- The open succeeds on the four bytes `h`, `i`, zero, `!`. -/
def envZeroByte : Env := envServing [104, 105, 0, 33] none junkStack

/-- The open succeeds on an empty stream. -/
def envEmpty : Env := envServing [] none zeroStack

/-- The open succeeds on a stream whose transport fails before the first byte. -/
def envReadError : Env := envServing (strBytes "hello") (some 0) zeroStack

/-! ## The shape of a run -/

theorem printf_read (n : Nat) (buf beyond : List Byte) (w : World) :
    printf "Read %zu bytes: %s\n" [.size_t n, .str buf beyond] w =
      ⟨w.out ++ readLine n (buf ++ beyond),
        w.trace ++ [.printf (readLine n (buf ++ beyond))],
        w.overrun || !terminated buf⟩ := by
  rfl

theorem printf_fail (w : World) :
    printf "Failed to open file\n" [] w =
      ⟨w.out ++ failLine, w.trace ++ [.printf failLine], w.overrun || false⟩ := by
  rfl

theorem main_of_open_error {env : Env} {e : OpenError}
    (h : env.fs resPath "rb" = .error e) :
    main env =
      ⟨0, ⟨failLine, [.fopen resPath "rb" false, .printf failLine], false⟩,
        none, none, none⟩ := by
  simp [main, fopen, h, printf_fail, World.init]

theorem main_of_open_ok_pos {env : Env} {s : Stream}
    (h : env.fs resPath "rb" = .ok s) (hpos : 0 < (received s).length) :
    main env =
      ⟨0, ⟨readLine (received s).length
              (received s ++ env.stack.bytes.drop (received s).length ++ env.beyond),
            [.fopen resPath "rb" true, .fread 0 1 sizeof_buf (received s).length,
              .printf (readLine (received s).length
                (received s ++ env.stack.bytes.drop (received s).length ++ env.beyond)),
              .fclose],
            !terminated (received s ++ env.stack.bytes.drop (received s).length)⟩,
        some ⟨s, (received s).length, true⟩,
        some (received s ++ env.stack.bytes.drop (received s).length),
        some (received s).length⟩ := by
  simp [main, fopen, h, fread, fclose, printf_read, World.init, received] at hpos ⊢
  simp [hpos]

theorem main_of_open_ok_zero {env : Env} {s : Stream}
    (h : env.fs resPath "rb" = .ok s) (hz : (received s).length = 0) :
    main env =
      ⟨0, ⟨[], [.fopen resPath "rb" true, .fread 0 1 sizeof_buf 0, .fclose], false⟩,
        some ⟨s, 0, true⟩, some env.stack.bytes, some 0⟩ := by
  have hnil : received s = [] := List.length_eq_zero.mp hz
  simp [main, fopen, h, fread, fclose, World.init, received] at hnil ⊢
  simp [hnil]


/-- Every run is of one of three shapes: the open fails, the read returns a
positive count, or the read returns 0. -/
theorem main_cases (env : Env) :
    (∃ e, env.fs resPath "rb" = .error e ∧
      main env =
        ⟨0, ⟨failLine, [.fopen resPath "rb" false, .printf failLine], false⟩,
          none, none, none⟩) ∨
    (∃ s, env.fs resPath "rb" = .ok s ∧ 0 < (received s).length ∧
      main env =
        ⟨0, ⟨readLine (received s).length
                (received s ++ env.stack.bytes.drop (received s).length ++ env.beyond),
              [.fopen resPath "rb" true, .fread 0 1 sizeof_buf (received s).length,
                .printf (readLine (received s).length
                  (received s ++ env.stack.bytes.drop (received s).length
                    ++ env.beyond)),
                .fclose],
              !terminated (received s ++ env.stack.bytes.drop (received s).length)⟩,
          some ⟨s, (received s).length, true⟩,
          some (received s ++ env.stack.bytes.drop (received s).length),
          some (received s).length⟩) ∨
    (∃ s, env.fs resPath "rb" = .ok s ∧ (received s).length = 0 ∧
      main env =
        ⟨0, ⟨[], [.fopen resPath "rb" true, .fread 0 1 sizeof_buf 0, .fclose], false⟩,
          some ⟨s, 0, true⟩, some env.stack.bytes, some 0⟩) := by
  rcases h : env.fs resPath "rb" with e | s
  · exact Or.inl ⟨e, rfl, main_of_open_error h⟩
  · rcases Nat.eq_zero_or_pos (received s).length with hz | hpos
    · exact Or.inr (Or.inr ⟨s, rfl, hz, main_of_open_ok_zero h hz⟩)
    · exact Or.inr (Or.inl ⟨s, rfl, hpos, main_of_open_ok_pos h hpos⟩)

/-- The line `Read ...` is never empty. -/
theorem readLine_ne_nil (n : Nat) (buf : List Byte) : readLine n buf ≠ [] := by
  intro h
  have h1 := congrArg List.length h
  simp [readLine, strBytes] at h1

/-- The state machine rejects a read after the close. -/
theorem run_read_after_close :
    Handle.run .unopened [.fopen resPath "rb" true, .fclose, .fread 0 1 100 0]
      = .error .UseAfterClose := by
  rfl

/-- The state machine rejects a second close. -/
theorem run_double_close :
    Handle.run .unopened [.fopen resPath "rb" true, .fclose, .fclose]
      = .error .UseAfterClose := by
  rfl

/-- The state machine rejects a read on a null handle. -/
theorem run_read_on_null :
    Handle.run .unopened [.fopen resPath "rb" false, .fread 0 1 100 0]
      = .error .NoStream := by
  rfl

/-! ## What `%s` prints -/

/-- Up to a zero byte preceded by non-zero bytes only, `%s` prints what
precedes it. -/
theorem cstr_append_zero (a rest : List Byte) (h : ∀ b ∈ a, b ≠ 0) :
    cstr (a ++ 0 :: rest) = a := by
  unfold cstr
  rw [List.takeWhile_append_of_pos (fun b hb => by simpa using h b hb)]
  simp

/-- An array with a zero byte in it is terminated. -/
theorem terminated_append_zero (a rest : List Byte) :
    terminated (a ++ 0 :: rest) = true := by
  simp [terminated]

/-- An array of non-zero bytes is not terminated. -/
theorem terminated_of_nonzero (a : List Byte) (h : ∀ b ∈ a, b ≠ 0) :
    terminated a = false := by
  simpa [terminated] using h

/-- What `%s` prints of an array starts with what it prints of a front part. -/
theorem cstr_append (a b : List Byte) : ∃ rest, cstr (a ++ b) = cstr a ++ rest := by
  unfold cstr
  rw [List.takeWhile_append]
  split
  · rename_i hlen
    have hself : List.takeWhile (fun b => decide (b ≠ 0)) a = a :=
      (List.takeWhile_sublist _).eq_of_length hlen
    exact ⟨List.takeWhile (fun b => decide (b ≠ 0)) b, by rw [hself]⟩
  · exact ⟨[], by simp⟩

/-- Over bytes that are all non-zero, `%s` prints them and reads on. -/
theorem cstr_nonzero_append (a b : List Byte) (h : ∀ x ∈ a, x ≠ 0) :
    cstr (a ++ b) = a ++ cstr b := by
  unfold cstr
  exact List.takeWhile_append_of_pos (fun x hx => by simpa using h x hx)

/-- The line printed for a count of 100 over an array of non-zero bytes: the
heading, the whole array, then what lies beyond it up to a zero byte. -/
theorem readLine_of_nonzero (a b : List Byte) (h : ∀ x ∈ a, x ≠ 0) :
    readLine 100 (a ++ b)
      = strBytes "Read 100 bytes: " ++ a ++ (cstr b ++ strBytes "\n") := by
  unfold readLine
  rw [cstr_nonzero_append a b h]
  simp only [List.append_assoc]
  rfl

/-- A list splits around the zero byte at index `k`. -/
theorem split_at_zero (cs : List Byte) (k : Nat) (hz : cs[k]? = some 0) :
    cs = cs.take k ++ 0 :: cs.drop (k + 1) := by
  obtain ⟨hlt, hget⟩ := List.getElem?_eq_some.mp hz
  rw [← hget, List.getElem_cons_drop, List.take_append_drop]

/-- With no zero byte at an index below `k`, the first `k` bytes are non-zero. -/
theorem take_nonzero (cs : List Byte) (k : Nat) (hmin : ∀ j, j < k → cs[j]? ≠ some 0) :
    ∀ b ∈ cs.take k, b ≠ 0 := by
  intro b hb hb0
  obtain ⟨j, hj⟩ := List.mem_iff_getElem?.mp hb
  rw [List.getElem?_take] at hj
  split at hj
  · rename_i hjk
    exact hmin j hjk (hb0 ▸ hj)
  · cases hj

/-- The bytes obtained from a stream without fault: its first 100 bytes. -/
theorem received_of_no_fault (c : List Byte) : received ⟨c, none⟩ = c.take 100 := rfl

/-! ## The claims -/

/-- C1: for every environment `main` returns, and its exit code is 0.  The
environments cover each behaviour: an open that fails, and, for every count
from 0 to 100, an open that succeeds followed by a read returning that count. -/
theorem main_exit_code_zero :
    (∀ env : Env, (main env).exitCode = 0) ∧
    (∃ env e, env.fs "res:/alternate_name.md" "rb" = .error e ∧
      (main env).exitCode = 0) ∧
    (∀ n, n ≤ 100 → ∃ env s, env.fs "res:/alternate_name.md" "rb" = .ok s ∧
      (main env).read = some n ∧ (main env).exitCode = 0) := by
  have hall : ∀ env : Env, (main env).exitCode = 0 := by
    intro env
    rcases main_cases env with ⟨_, _, hm⟩ | ⟨_, _, _, hm⟩ | ⟨_, _, _, hm⟩ <;> rw [hm]
  refine ⟨hall, ⟨envNotFound, .NotFound, rfl, hall _⟩, ?_⟩
  intro n hn
  have hfs : (envServing (List.replicate n 65) none zeroStack).fs resPath "rb"
      = .ok ⟨List.replicate n 65, none⟩ := rfl
  have hlen : (received ⟨List.replicate n 65, none⟩).length = n := by
    rw [received_of_no_fault, List.length_take, List.length_replicate]
    omega
  refine ⟨_, _, hfs, ?_, hall _⟩
  rcases Nat.eq_zero_or_pos n with h0 | hp
  · rw [main_of_open_ok_zero hfs (by rw [hlen]; exact h0), h0]
  · rw [main_of_open_ok_pos hfs (by rw [hlen]; exact hp), hlen]

/-- C2: when the open of `res:/alternate_name.md` in mode `rb` fails, whatever
the failure kind, the whole output is the line `Failed to open file`, the only
text printed is that line, and the output does not start with `Read`. -/
theorem open_failure_output (env : Env) (e : OpenError)
    (h : env.fs "res:/alternate_name.md" "rb" = .error e) :
    (main env).output = strBytes "Failed to open file\n" ∧
    (∀ text, Event.printf text ∈ (main env).trace →
      text = strBytes "Failed to open file\n") ∧
    ¬ ∃ rest, (main env).output = strBytes "Read" ++ rest := by
  rw [main_of_open_error h]
  refine ⟨rfl, ?_, ?_⟩
  · intro text ht
    simpa [Outcome.trace, failLine] using ht
  · rintro ⟨rest, hr⟩
    have h1 : ([70] : List Byte) = [82] := congrArg (List.take 1) hr
    exact absurd h1 (by decide)

/-- Witness of C2 on the environment whose store lacks the path. -/
theorem open_failure_output_witness :
    (main envNotFound).output = strBytes "Failed to open file\n" ∧
    (∀ text, Event.printf text ∈ (main envNotFound).trace →
      text = strBytes "Failed to open file\n") ∧
    ¬ ∃ rest, (main envNotFound).output = strBytes "Read" ++ rest :=
  open_failure_output envNotFound .NotFound rfl

/-- C4: when the open succeeds, `fclose` is called on the handle exactly once,
it is the last library call before `main` returns, and the handle ends closed,
whether the read returned a positive count or 0. -/
theorem handle_released (env : Env) (s : Stream)
    (h : env.fs "res:/alternate_name.md" "rb" = .ok s) :
    (main env).trace.count .fclose = 1 ∧
    (main env).trace.getLast? = some .fclose ∧
    (∃ f, (main env).f = some f ∧ f.stream = s ∧ f.closed = true) ∧
    (main env).exitCode = 0 := by
  rcases Nat.eq_zero_or_pos (received s).length with hz | hpos
  · rw [main_of_open_ok_zero h hz]
    simp [Outcome.trace, List.count_cons]
  · rw [main_of_open_ok_pos h hpos]
    simp [Outcome.trace, List.count_cons]

/-- Witness of C4 on a run whose read returns 5, on a run whose read returns 0
at end of stream, and on a run whose read returns 0 on a transport failure. -/
theorem handle_released_witness :
    ((main envHello).trace.count .fclose = 1 ∧
      (main envHello).trace.getLast? = some .fclose ∧
      (∃ f, (main envHello).f = some f ∧ f.stream = ⟨strBytes "hello", none⟩ ∧
        f.closed = true) ∧
      (main envHello).exitCode = 0) ∧
    ((main envEmpty).trace.count .fclose = 1 ∧
      (main envEmpty).trace.getLast? = some .fclose ∧
      (∃ f, (main envEmpty).f = some f ∧ f.stream = ⟨[], none⟩ ∧ f.closed = true) ∧
      (main envEmpty).exitCode = 0) ∧
    ((main envReadError).trace.count .fclose = 1 ∧
      (main envReadError).trace.getLast? = some .fclose ∧
      (∃ f, (main envReadError).f = some f ∧
        f.stream = ⟨strBytes "hello", some 0⟩ ∧ f.closed = true) ∧
      (main envReadError).exitCode = 0) :=
  ⟨handle_released envHello ⟨strBytes "hello", none⟩ rfl,
    handle_released envEmpty ⟨[], none⟩ rfl,
    handle_released envReadError ⟨strBytes "hello", some 0⟩ rfl⟩

/-- C10: the output is empty exactly when the open succeeds and the read
returns 0, which is when the stream has no obtainable byte (it is empty, or its
transport fails at once); then nothing was printed, the handle was still closed
last and the exit code is 0. -/
theorem output_empty_iff (env : Env) :
    ((main env).output = [] ↔
      ∃ s, env.fs "res:/alternate_name.md" "rb" = .ok s ∧ (main env).read = some 0) ∧
    (∀ s, env.fs "res:/alternate_name.md" "rb" = .ok s →
      ((main env).read = some 0 ↔ s.deliverable = [])) ∧
    ((main env).output = [] →
      (∀ text, Event.printf text ∉ (main env).trace) ∧
      (main env).trace.getLast? = some .fclose ∧
      (∃ f, (main env).f = some f ∧ f.closed = true) ∧
      (main env).exitCode = 0) := by
  rcases main_cases env with ⟨e, he, hm⟩ | ⟨s, hs, hpos, hm⟩ | ⟨s, hs, hz, hm⟩
  · rw [hm]
    refine ⟨⟨fun h => absurd h (by decide), ?_⟩, ?_, fun h => absurd h (by decide)⟩
    · rintro ⟨s, hs, _⟩
      rw [he] at hs
      cases hs
    · intro s hs
      rw [he] at hs
      cases hs
  · rw [hm]
    have hne : (received s).length ≠ 0 := Nat.pos_iff_ne_zero.mp hpos
    refine ⟨⟨fun h => absurd h (readLine_ne_nil _ _), ?_⟩, ?_,
      fun h => absurd h (readLine_ne_nil _ _)⟩
    · rintro ⟨_, _, hr⟩
      exact absurd (Option.some.inj hr) hne
    · intro s1 hs1
      rw [hs] at hs1
      cases hs1
      constructor
      · intro hr
        exact absurd (Option.some.inj hr) hne
      · intro hd
        simp [received, hd] at hne
  · rw [hm]
    refine ⟨⟨fun _ => ⟨s, hs, rfl⟩, fun _ => rfl⟩, ?_, fun _ => ?_⟩
    · intro s1 hs1
      rw [hs] at hs1
      cases hs1
      constructor
      · intro _
        have hnil : received s = [] := List.length_eq_zero.mp hz
        simpa [received] using hnil
      · intro _
        rfl
    · simp [Outcome.trace]

/-- Counterexample to C5: the open succeeds on an empty stream and the program
prints nothing at all. -/
theorem empty_stream_prints_nothing :
    envEmpty.fs "res:/alternate_name.md" "rb" = .ok ⟨[], none⟩ ∧
    (main envEmpty).output = [] ∧
    ¬ ((main envEmpty).output ≠ [] ∧
        ((main envEmpty).output = strBytes "Failed to open file\n" ∨
          ∃ n rest, (main envEmpty).output
            = strBytes "Read " ++ fmtZu n ++ strBytes " bytes: " ++ rest)) :=
  ⟨rfl, by decide, fun h => h.1 (by decide)⟩

/-- C5, amended: when the open fails the output is the line
`Failed to open file`; when the read returns a positive count `n` the output
is a line starting with `Read <n> bytes: `; in both cases it is not empty.  When
the open succeeds on an empty stream, the guard `read > 0` skips the print and
the output is empty. -/
theorem output_by_case (env : Env) :
    (∀ e, env.fs "res:/alternate_name.md" "rb" = .error e →
      (main env).output = strBytes "Failed to open file\n" ∧ (main env).output ≠ []) ∧
    (∀ s n, env.fs "res:/alternate_name.md" "rb" = .ok s →
      (main env).read = some n → 0 < n →
      (∃ rest, (main env).output
        = strBytes "Read " ++ fmtZu n ++ strBytes " bytes: " ++ rest) ∧
      (main env).output ≠ []) ∧
    (env.fs "res:/alternate_name.md" "rb" = .ok ⟨[], none⟩ → (main env).output = []) := by
  rcases main_cases env with ⟨e, he, hm⟩ | ⟨s, hs, hpos, hm⟩ | ⟨s, hs, hz, hm⟩
  · rw [hm, he]
    refine ⟨fun _ _ => ⟨rfl, by decide⟩, ?_, ?_⟩
    · intro s n h
      cases h
    · intro h
      cases h
  · rw [hm, hs]
    refine ⟨(fun e h => by cases h), ?_, ?_⟩
    · intro s1 n h1 hr _
      cases Option.some.inj hr
      refine ⟨⟨cstr (received s ++ env.stack.bytes.drop (received s).length
        ++ env.beyond) ++ strBytes "\n", ?_⟩, readLine_ne_nil _ _⟩
      simp only [Outcome.output, readLine, List.append_assoc]
    · intro h
      cases Except.ok.inj h
      simp [received, Stream.deliverable] at hpos
  · rw [hm, hs]
    refine ⟨(fun e h => by cases h), ?_, fun _ => rfl⟩
    intro s1 n h1 hr hn
    cases Option.some.inj hr
    exact absurd hn (by decide)

/-- Witness of the amended C5: the three cases on concrete environments. -/
theorem output_by_case_witness :
    ((main envNotFound).output = strBytes "Failed to open file\n" ∧
      (main envNotFound).output ≠ []) ∧
    ((∃ rest, (main envHello).output
        = strBytes "Read " ++ fmtZu 5 ++ strBytes " bytes: " ++ rest) ∧
      (main envHello).output ≠ []) ∧
    (main envEmpty).output = [] :=
  ⟨(output_by_case envNotFound).1 .NotFound rfl,
    (output_by_case envHello).2.1 ⟨strBytes "hello", none⟩ 5 rfl rfl (by decide),
    (output_by_case envEmpty).2.2 rfl⟩

/-- C6: the library calls of every run pass the ByteStream state machine.  When
the open fails the handle is null and no read or close is issued; when it
succeeds the machine ends in `Closed`, reached by the single `fclose`, which is
the last call of the run.  `UseAfterClose` never arises. -/
theorem stream_protocol (env : Env) :
    Handle.run .unopened (main env).trace ≠ .error .UseAfterClose ∧
    (((∃ e, env.fs "res:/alternate_name.md" "rb" = .error e) ∧
        Handle.run .unopened (main env).trace = .ok .null ∧
        ∀ ev ∈ (main env).trace, ev.isStreamOp = false) ∨
      ((∃ s, env.fs "res:/alternate_name.md" "rb" = .ok s) ∧
        Handle.run .unopened (main env).trace = .ok (.live .Closed) ∧
        ((main env).trace.filter Event.isRead).length = 1 ∧
        (main env).trace.count .fclose = 1 ∧
        (main env).trace.getLast? = some .fclose)) := by
  rcases main_cases env with ⟨e, he, hm⟩ | ⟨s, hs, hpos, hm⟩ | ⟨s, hs, hz, hm⟩
  · rw [hm]
    refine ⟨(fun h => by cases h), Or.inl ⟨⟨e, he⟩, rfl, ?_⟩⟩
    intro ev hev
    simp only [Outcome.trace, List.mem_cons, List.mem_singleton, List.not_mem_nil,
      or_false] at hev
    rcases hev with rfl | rfl <;> rfl
  · rw [hm]
    refine ⟨(fun h => by cases h), Or.inr ⟨⟨s, hs⟩, rfl, ?_⟩⟩
    simp [Outcome.trace, List.count_cons, Event.isRead, List.filter]
  · rw [hm]
    refine ⟨(fun h => by cases h), Or.inr ⟨⟨s, hs⟩, rfl, ?_⟩⟩
    simp [Outcome.trace, List.count_cons, Event.isRead, List.filter]

/-- Counterexample to C7: one environment fails the open with `UnknownScheme`,
the other with `NotFound`, and the two runs are equal in every respect. -/
theorem failure_kind_not_distinguished :
    envUnknownScheme.fs "res:/alternate_name.md" "rb" = .error .UnknownScheme ∧
    envNotFound.fs "res:/alternate_name.md" "rb" = .error .NotFound ∧
    ¬ (main envUnknownScheme ≠ main envNotFound) ∧
    (main envUnknownScheme).output = (main envNotFound).output :=
  ⟨rfl, rfl, by decide, by decide⟩

/-- C7, amended: the resolver answers an open on an unregistered scheme with
`UnknownScheme`, never with `NotFound`; the program reports every failed open
the same way, the line `Failed to open file` and exit code 0, so that two runs
whose opens fail are equal whatever the failure kinds. -/
theorem failure_kind_unobservable (reg : Registry) (uri : ResourceURI)
    (env1 env2 : Env) (e1 e2 : OpenError)
    (hreg : reg.lookup uri.scheme = none)
    (h1 : env1.fs "res:/alternate_name.md" "rb" = .error e1)
    (h2 : env2.fs "res:/alternate_name.md" "rb" = .error e2) :
    resolverOpen reg uri = .error .UnknownScheme ∧
    resolverOpen reg uri ≠ .error .NotFound ∧
    main env1 = main env2 ∧
    (main env1).output = strBytes "Failed to open file\n" ∧
    (main env1).exitCode = 0 := by
  have hres : resolverOpen reg uri = .error .UnknownScheme := by
    simp [resolverOpen, hreg]
  rw [hres, main_of_open_error h1, main_of_open_error h2]
  exact ⟨rfl, (fun h => by cases h), rfl, rfl, rfl⟩

/-- Witness of the amended C7: the empty registry, and the two environments
that fail with `UnknownScheme` and with `NotFound`. -/
theorem failure_kind_unobservable_witness :
    resolverOpen [] ⟨"res", "/alternate_name.md"⟩ = .error .UnknownScheme ∧
    resolverOpen [] ⟨"res", "/alternate_name.md"⟩ ≠ .error .NotFound ∧
    main envUnknownScheme = main envNotFound ∧
    (main envUnknownScheme).output = strBytes "Failed to open file\n" ∧
    (main envUnknownScheme).exitCode = 0 :=
  failure_kind_unobservable [] ⟨"res", "/alternate_name.md"⟩ envUnknownScheme envNotFound
    .UnknownScheme .NotFound rfl rfl rfl

/-- C3: on a stream of content `cs` read without fault, the program issues one
read, at offset 0, of 100 items of size 1, which is `sizeof(buf)` and the
capacity of `buf`; the count returned is `n = min |cs| 100`; `buf[0..n)` holds
the first `n` bytes of `cs` and the rest of `buf` is untouched; and when `n` is
positive the output starts with `Read <n> bytes: ` followed by what `%s` prints
of those `n` bytes. -/
theorem read_delivers_content (env : Env) (cs : List Byte)
    (h : env.fs "res:/alternate_name.md" "rb" = .ok ⟨cs, none⟩) :
    1 * sizeof_buf = 100 ∧ env.stack.bytes.length = 100 ∧
    (main env).trace.filter Event.isRead = [.fread 0 1 100 (min cs.length 100)] ∧
    (main env).read = some (min cs.length 100) ∧
    (∃ buf, (main env).buf = some buf ∧ buf.length = 100 ∧
      buf.take (min cs.length 100) = cs.take (min cs.length 100) ∧
      buf.drop (min cs.length 100) = env.stack.bytes.drop (min cs.length 100)) ∧
    (0 < min cs.length 100 →
      ∃ rest, (main env).output
        = strBytes "Read " ++ fmtZu (min cs.length 100) ++ strBytes " bytes: "
          ++ cstr (cs.take (min cs.length 100)) ++ rest) := by
  have hlen : (received ⟨cs, none⟩).length = min cs.length 100 := by
    rw [received_of_no_fault, List.length_take, Nat.min_comm]
  have htake : cs.take (min cs.length 100) = cs.take 100 := by
    rcases Nat.le_total cs.length 100 with hle | hle
    · rw [Nat.min_eq_left hle, List.take_of_length_le (Nat.le_refl _),
        List.take_of_length_le hle]
    · rw [Nat.min_eq_right hle]
  have hstack : env.stack.bytes.length = 100 := env.stack.size
  refine ⟨rfl, hstack, ?_⟩
  rcases Nat.eq_zero_or_pos (received ⟨cs, none⟩).length with hz | hpos
  · rw [main_of_open_ok_zero h hz]
    rw [hlen] at hz
    have hnil : cs.take 100 = [] := by
      rw [← htake, hz]
      rfl
    rw [hz]
    refine ⟨by simp [Outcome.trace, Event.isRead, List.filter], rfl,
      ⟨env.stack.bytes, rfl, hstack, rfl, rfl⟩, fun h0 => absurd h0 (by decide)⟩
  · rw [main_of_open_ok_pos h hpos, hlen, received_of_no_fault]
    refine ⟨by simp [Outcome.trace, Event.isRead, List.filter], rfl,
      ⟨_, rfl, ?_, ?_, ?_⟩, fun _ => ?_⟩
    · rw [List.length_append, List.length_drop, List.length_take, hstack]
      omega
    · rw [htake]
      exact List.take_left' (by rw [List.length_take, Nat.min_comm])
    · exact List.drop_left' (by rw [List.length_take, Nat.min_comm])
    · obtain ⟨rest, hrest⟩ :=
        cstr_append (cs.take 100)
          (env.stack.bytes.drop (min cs.length 100) ++ env.beyond)
      refine ⟨rest ++ strBytes "\n", ?_⟩
      simp only [Outcome.output, readLine, hrest, htake, List.append_assoc]

/-- Witness of C3, the scenario of the specification: the store maps
`/alternate_name.md` to `hello`; the read returns 5, the first 5 bytes of `buf`
are `hello`, and the output starts with `Read 5 bytes: hello`. -/
theorem read_delivers_content_witness :
    envHello.fs "res:/alternate_name.md" "rb" = .ok ⟨strBytes "hello", none⟩ ∧
    (main envHello).trace.filter Event.isRead = [.fread 0 1 100 5] ∧
    (main envHello).read = some 5 ∧
    (∃ buf, (main envHello).buf = some buf ∧ buf.take 5 = strBytes "hello") ∧
    ∃ rest, (main envHello).output = strBytes "Read 5 bytes: hello" ++ rest := by
  have t := read_delivers_content envHello (strBytes "hello") rfl
  obtain ⟨buf, hbuf, _, htake, _⟩ := t.2.2.2.2.1
  obtain ⟨rest, hrest⟩ := t.2.2.2.2.2 (by decide)
  exact ⟨rfl, t.2.2.1, t.2.2.2.1, ⟨buf, hbuf, htake⟩, ⟨rest, hrest⟩⟩

/-- C8: on a stream of at least 100 bytes whose first 100 bytes are non-zero
the read returns 100, `buf` holds exactly those 100 non-zero bytes, and the `%s`
conversion of the `printf` finds no terminator within the array: the text
printed starts with `Read 100 bytes: ` and all 100 bytes of `buf`, and the
conversion runs off the end of the array.  In every run whose open succeeds the
array is the bytes `fread` stored followed by the untouched rest of the
storage: `main` writes no terminator into it. -/
theorem unterminated_buffer (env : Env) (cs : List Byte)
    (h : env.fs "res:/alternate_name.md" "rb" = .ok ⟨cs, none⟩)
    (hlen : 100 ≤ cs.length) (hnz : ∀ b ∈ cs.take 100, b ≠ 0) :
    (main env).read = some 100 ∧
    (main env).buf = some (cs.take 100) ∧
    (cs.take 100).length = sizeof_buf ∧
    (∀ b ∈ cs.take 100, b ≠ 0) ∧
    terminated (cs.take 100) = false ∧
    (∃ rest,
      Event.printf (strBytes "Read 100 bytes: " ++ cs.take 100 ++ rest)
        ∈ (main env).trace ∧
      (main env).output = strBytes "Read 100 bytes: " ++ cs.take 100 ++ rest) ∧
    (main env).world.overrun = true ∧
    (∀ (env2 : Env) (s : Stream), env2.fs "res:/alternate_name.md" "rb" = .ok s →
      (main env2).buf
        = some (s.deliverable.take 100
            ++ env2.stack.bytes.drop (s.deliverable.take 100).length)) := by
  have hl : (cs.take 100).length = 100 := by
    rw [List.length_take]
    omega
  have hrl : (received ⟨cs, none⟩).length = 100 := hl
  have hpos : 0 < (received ⟨cs, none⟩).length := by
    rw [hrl]
    decide
  have hdrop : env.stack.bytes.drop 100 = [] :=
    List.drop_of_length_le (Nat.le_of_eq env.stack.size)
  have hterm := terminated_of_nonzero _ hnz
  have hgen : ∀ (env2 : Env) (s : Stream), env2.fs resPath "rb" = .ok s →
      (main env2).buf
        = some (s.deliverable.take 100
            ++ env2.stack.bytes.drop (s.deliverable.take 100).length) := by
    intro env2 s hs
    rcases Nat.eq_zero_or_pos (received s).length with hz | hp
    · rw [main_of_open_ok_zero hs hz]
      have hnil : s.deliverable.take 100 = [] := List.length_eq_zero.mp hz
      rw [hnil]
      rfl
    · rw [main_of_open_ok_pos hs hp]
      rfl
  rw [main_of_open_ok_pos h hpos, hrl, received_of_no_fault, hdrop, List.append_nil,
    readLine_of_nonzero _ _ hnz]
  refine ⟨rfl, rfl, hl, hnz, hterm, ⟨cstr env.beyond ++ strBytes "\n", ?_, rfl⟩, ?_, hgen⟩
  · simp [Outcome.trace]
  · simp [hterm]

set_option maxRecDepth 8192 in
/-- Witness of C8: a stream of 120 bytes `A`. -/
theorem unterminated_buffer_witness :
    (main envLong).read = some 100 ∧
    (main envLong).buf = some (List.replicate 100 65) ∧
    (List.replicate 100 (65 : Byte)).length = sizeof_buf ∧
    (∀ b ∈ List.replicate 100 (65 : Byte), b ≠ 0) ∧
    terminated (List.replicate 100 (65 : Byte)) = false ∧
    (∃ rest,
      Event.printf (strBytes "Read 100 bytes: " ++ List.replicate 100 65 ++ rest)
        ∈ (main envLong).trace ∧
      (main envLong).output
        = strBytes "Read 100 bytes: " ++ List.replicate 100 65 ++ rest) ∧
    (main envLong).world.overrun = true := by
  have t := unterminated_buffer envLong (List.replicate 120 65) rfl (by decide)
    (by decide)
  exact ⟨t.1, t.2.1, t.2.2.1, t.2.2.2.1, t.2.2.2.2.1, t.2.2.2.2.2.1, t.2.2.2.2.2.2.1⟩

/-- C9: on a stream read without fault whose first `n = min |cs| 100` bytes
hold a zero byte, the first of them at index `k < n`, the output is exactly
`Read <n> bytes: ` followed by the `k` bytes before the zero byte and a
newline: fewer content bytes are printed than the count says. -/
theorem output_truncated_at_zero (env : Env) (cs : List Byte) (k : Nat)
    (h : env.fs "res:/alternate_name.md" "rb" = .ok ⟨cs, none⟩)
    (hk : k < min cs.length 100) (hz : cs[k]? = some 0)
    (hmin : ∀ j, j < k → cs[j]? ≠ some 0) :
    (main env).output
      = strBytes "Read " ++ fmtZu (min cs.length 100) ++ strBytes " bytes: "
        ++ cs.take k ++ strBytes "\n" ∧
    (main env).read = some (min cs.length 100) ∧
    (cs.take k).length = k ∧ k < min cs.length 100 ∧
    (main env).world.overrun = false := by
  have hk1 : k < cs.length := Nat.lt_of_lt_of_le hk (Nat.min_le_left _ _)
  have hk2 : k < 100 := Nat.lt_of_lt_of_le hk (Nat.min_le_right _ _)
  have hlen : (received ⟨cs, none⟩).length = min cs.length 100 := by
    rw [received_of_no_fault, List.length_take, Nat.min_comm]
  have hpos : 0 < (received ⟨cs, none⟩).length := by
    rw [hlen]
    exact Nat.lt_of_le_of_lt (Nat.zero_le _) hk
  have hz1 : (cs.take 100)[k]? = some 0 := by
    rw [List.getElem?_take_of_lt hk2]
    exact hz
  have hsplit := split_at_zero (cs.take 100) k hz1
  have htk : (cs.take 100).take k = cs.take k := by
    rw [List.take_take, Nat.min_eq_left (Nat.le_of_lt hk2)]
  rw [htk] at hsplit
  have hnz := take_nonzero cs k hmin
  have hcstr : ∀ tail, cstr (cs.take 100 ++ tail) = cs.take k := by
    intro tail
    rw [hsplit, List.append_assoc, List.cons_append]
    exact cstr_append_zero _ _ hnz
  have hterm : ∀ tail, terminated (cs.take 100 ++ tail) = true := by
    intro tail
    rw [hsplit, List.append_assoc, List.cons_append]
    exact terminated_append_zero _ _
  rw [main_of_open_ok_pos h hpos, hlen, received_of_no_fault]
  refine ⟨?_, rfl, ?_, hk, ?_⟩
  · simp only [Outcome.output, readLine, hcstr, List.append_assoc]
  · rw [List.length_take]
    omega
  · simp [hterm]

/-- Witness of C9: the stream `h`, `i`, zero, `!`; the count printed is 4 and
the text printed is `hi`. -/
theorem output_truncated_at_zero_witness :
    (main envZeroByte).output = strBytes "Read 4 bytes: hi\n" ∧
    (main envZeroByte).read = some 4 ∧
    (List.take 2 ([104, 105, 0, 33] : List Byte)).length = 2 ∧ 2 < 4 ∧
    (main envZeroByte).world.overrun = false :=
  output_truncated_at_zero envZeroByte [104, 105, 0, 33] 2 rfl (by decide) rfl
    (by decide)

end ResourceFs
